import Mathlib

/-!
Verification of the AI chat client and web content extractor of this
repository, as a shallow embedding in Lean 4.

The embedding covers:
* the chat client `LLMService` of `src/main/services/llmService.ts`
  (API-Free-LLM variant): transcript state, `setWebsiteContext`,
  `clearHistory`, `sendMessage` with rollback, the outbound message
  construction of `callAPI`, and `truncateContent`;
* the retry/backoff machinery of the Gemini variant of
  `llmService.ts`: `handleError` classification and the `callAPI`
  retry loop with exponential backoff;
* the `WebContentExtractor`: `extractTextFromHTML` and
  `decodeHTMLEntities`, with the regex passes modelled as explicit
  left-to-right scanners equivalent to the source regexes.
-/

namespace AIApp

/-- Roles of chat messages, from the `ChatMessage` interface:
`role: 'system' | 'user' | 'assistant'`. -/
inductive Role where
  | system
  | user
  | assistant
deriving DecidableEq, Repr

/-- `ChatMessage { role, content }` from `llmService.ts`. -/
structure ChatMessage where
  role : Role
  content : String
deriving DecidableEq, Repr

/-- The mutable state of an `LLMService` instance:
`chatHistory: ChatMessage[]` and `websiteContext: string`. -/
structure LLMState where
  chatHistory : List ChatMessage
  websiteContext : String
deriving DecidableEq, Repr

/-- Fresh service instance: `chatHistory = []`, `websiteContext = ''`. -/
def initialState : LLMState := ⟨[], ""⟩

/-- `setWebsiteContext(content)`: stores the context and resets
`chatHistory` to `[]`. -/
def setWebsiteContext (content : String) (s : LLMState) : LLMState :=
  { s with websiteContext := content, chatHistory := [] }

/-- `clearHistory()`: `this.chatHistory = []`. -/
def clearHistory (s : LLMState) : LLMState :=
  { s with chatHistory := [] }

/-- `truncateContent(content, maxChars)`: identity when the length is
within the limit, otherwise the first `maxChars` characters followed by
the literal truncation marker. -/
def truncateContent (content : String) (maxChars : Nat) : String :=
  if content.length ≤ maxChars then
    content
  else
    String.mk (content.data.take maxChars) ++ "\n\n[Content truncated...]"

/-- The system message content built by `sendMessage` when
`websiteContext` is non-empty. -/
def systemContent (ctx : String) : String :=
  "You are a helpful assistant. Answer questions based on this website content:\n\n"
    ++ truncateContent ctx 3000

/-- The `messages` array assembled by `sendMessage` just before calling
`callAPI`: optional system message (when the context is non-empty),
then the whole chat history, which at that point ends with the freshly
pushed user message. -/
def messagesFor (s : LLMState) (userMessage : String) : List ChatMessage :=
  (if s.websiteContext = "" then []
   else [⟨Role.system, systemContent s.websiteContext⟩])
    ++ (s.chatHistory ++ [⟨Role.user, userMessage⟩])

/-- `sendMessage(userMessage)`. The remote call (`callAPI` and the
HTTP layer inside it) is abstracted as an oracle `api` from the
assembled messages to either a response text or an error message.
On success the assistant reply is appended after the user message; on
failure `chatHistory.pop()` removes the just-appended user message and
the error propagates. -/
def sendMessage (api : List ChatMessage → Except String String)
    (userMessage : String) (s : LLMState) :
    Except String String × LLMState :=
  let hist1 := s.chatHistory ++ [⟨Role.user, userMessage⟩]
  match api (messagesFor s userMessage) with
  | Except.ok response =>
      (Except.ok response,
        { s with chatHistory := hist1 ++ [⟨Role.assistant, response⟩] })
  | Except.error e =>
      (Except.error e, { s with chatHistory := hist1.dropLast })

/-- Run a list of `sendMessage` calls (each an `api` oracle paired with
a user message) in order, keeping only the resulting state. -/
def runSends (calls : List ((List ChatMessage → Except String String) × String))
    (s : LLMState) : LLMState :=
  calls.foldl (fun st c => (sendMessage c.1 c.2 st).2) s

end AIApp

namespace AIApp

/-- Generic driver for the global-replace regex passes of
`WebContentExtractor`: scan left to right; where `step` recognises a
match starting at the current position it yields the replacement
characters and the rest of the input after the match, otherwise the
scan advances one character. Each match consumes at least one
character, so fuel equal to the input length never runs out. -/
def scanReplace (step : List Char → Option (List Char × List Char)) :
    Nat → List Char → List Char
  | 0, l => l
  | _ + 1, [] => []
  | fuel + 1, c :: cs =>
    match step (c :: cs) with
    | some (out, rest) => out ++ scanReplace step fuel rest
    | none => c :: scanReplace step fuel cs

/-- The apostrophe character, written by code point. -/
def apos : Char := Char.ofNat 39

/-- The entity table of `decodeHTMLEntities`. Lookup outside the table
falls back to the entity itself (`entities[entity] || entity`). -/
def entLookup (entity : String) : String :=
  if entity = "&amp;" then "&"
  else if entity = "&lt;" then "<"
  else if entity = "&gt;" then ">"
  else if entity = "&quot;" then "\""
  else if entity = "&#39;" then String.mk [apos]
  else if entity = "&nbsp;" then " "
  else entity

/-- One match of the regex pass for HTML entities. The source regex is
a global replace of ampersand, one or more non-semicolon characters,
then a semicolon, each match replaced by its `entLookup` image. -/
def entityStep (l : List Char) : Option (List Char × List Char) :=
  match l with
  | '&' :: rest =>
    let body := rest.takeWhile (fun c => c ≠ ';')
    match rest.dropWhile (fun c => c ≠ ';') with
    | ';' :: tail =>
        if body.isEmpty then none
        else some ((entLookup (String.mk ('&' :: body ++ [';']))).data, tail)
    | _ => none
  | _ => none

/-- `decodeHTMLEntities(text)`. -/
def decodeHTMLEntities (text : String) : String :=
  String.mk (scanReplace entityStep text.data.length text.data)

/-- One match of the tag-stripping pass: an opening angle bracket, one
or more non-closing-bracket characters, then a closing bracket, the
whole match replaced by a single space. -/
def tagStep (l : List Char) : Option (List Char × List Char) :=
  match l with
  | '<' :: rest =>
    let body := rest.takeWhile (fun c => c ≠ '>')
    match rest.dropWhile (fun c => c ≠ '>') with
    | '>' :: tail => if body.isEmpty then none else some ([' '], tail)
    | _ => none
  | _ => none

/-- Whitespace class of the source regexes (the JS `\s` core set). -/
def jsWS (c : Char) : Bool :=
  c = ' ' || c = '\t' || c = '\n' || c = '\x0d' || c = '\x0b' || c = '\x0c'

/-- One match of the whitespace-collapsing pass: a maximal run of one
or more whitespace characters, replaced by a single space. -/
def wsStep (l : List Char) : Option (List Char × List Char) :=
  match l with
  | c :: cs => if jsWS c then some ([' '], cs.dropWhile jsWS) else none
  | [] => none

/-- Case-insensitive prefix test; the pattern is given pre-lowered. -/
def listStartsWithCI : List Char → List Char → Bool
  | [], _ => true
  | _ :: _, [] => false
  | p :: ps, c :: cs => p == c.toLower && listStartsWithCI ps cs

/-- Word characters for the regex word boundary after the tag name. -/
def isWordChar (c : Char) : Bool := c.isAlphanum || c = '_'

/-- Search for the first case-insensitive occurrence of `pat` and
return everything after it. -/
def dropToAfterCI (pat : List Char) : List Char → Option (List Char)
  | [] => none
  | c :: cs =>
    if listStartsWithCI pat (c :: cs) then some ((c :: cs).drop pat.length)
    else dropToAfterCI pat cs

/-- One match of the script/style-block removal pass, for the lowered
tag name `tag`. The source regex matches a lower-or-upper opening tag
name at a word boundary and everything up to and including the first
subsequent closing tag; the match is deleted. With no closing tag the
regex cannot complete and nothing is removed. -/
def blockStep (tag : List Char) (l : List Char) : Option (List Char × List Char) :=
  match l with
  | '<' :: rest =>
    if listStartsWithCI tag rest then
      match rest.drop tag.length with
      | [] => (dropToAfterCI ('<' :: '/' :: tag ++ ['>']) []).map (fun t => ([], t))
      | c :: cs =>
        if isWordChar c then none
        else (dropToAfterCI ('<' :: '/' :: tag ++ ['>']) (c :: cs)).map
          (fun t => ([], t))
    else none
  | _ => none

/-- `extractTextFromHTML(html)`: remove script blocks, remove style
blocks, strip remaining tags to spaces, decode entities, collapse
whitespace runs, and trim. -/
def extractTextFromHTML (html : String) : String :=
  let t1 := scanReplace (blockStep "script".data) html.data.length html.data
  let t2 := scanReplace (blockStep "style".data) t1.length t1
  let t3 := scanReplace tagStep t2.length t2
  let t4 := (decodeHTMLEntities (String.mk t3)).data
  let t5 := scanReplace wsStep t4.length t4
  String.mk (((t5.dropWhile jsWS).reverse.dropWhile jsWS).reverse)

end AIApp

namespace AIApp

/-- Prefix test on character lists (exact match). -/
def listStartsWith : List Char → List Char → Bool
  | [], _ => true
  | _ :: _, [] => false
  | p :: ps, c :: cs => p == c && listStartsWith ps cs

/-- Substring occurrence test on character lists, scanning position by
position. -/
def listContains (pat : List Char) : List Char → Bool
  | [] => listStartsWith pat []
  | c :: cs => listStartsWith pat (c :: cs) || listContains pat cs

/-- `s.includes(pat)` of the source, on the character sequences. -/
def containsSubstr (s pat : String) : Bool := listContains pat.data s.data

namespace Gemini

/-- Character-wise lowercasing, as `message.toLowerCase()` of the
source acts on the character sequence. -/
def lowerStr (s : String) : String := String.mk (s.data.map Char.toLower)

/-- `MAX_RETRIES` default from the constructor: `parseInt(... || '3')`. -/
def defaultMaxRetries : Nat := 3

/-- Message thrown by `handleError` for an invalid API key. -/
def invalidKeyMsg : String :=
  "Invalid API key. Check GEMINI_API_KEY in .env file\nGet your key at: https://aistudio.google.com/app/apikey"

/-- Message thrown by `handleError` when the model is not found. -/
def modelNotFoundMsg (modelName : String) : String :=
  "Model \"" ++ modelName ++ "\" not found.\nAvailable: gemini-pro, gemini-1.5-pro, gemini-1.5-flash"

/-- Message thrown by `handleError` for billing/payment problems. -/
def billingMsg : String :=
  "Billing not enabled. Enable at: https://console.cloud.google.com/billing"

/-- Message thrown by `handleError` on the last attempt for quota
exhaustion. -/
def quotaMsg : String :=
  "API quota exceeded.\n• Free tier: 15 req/min, 1,500 req/day\n• Upgrade at: https://ai.google.dev/pricing"

/-- Message thrown by `handleError` on the last attempt for rate
limiting. -/
def rateLimitMsg : String := "Rate limit reached. Please wait 1 minute."

/-- Message thrown by `handleError` on the last attempt for network
failures. -/
def networkMsg : String :=
  "Network error. Check:\n1. Internet connection\n2. Firewall settings\n3. Try again later"

/-- Error thrown inside the try block when the response text is empty. -/
def emptyResponseMsg : String := "Empty response from Gemini API"

/-- The error thrown after the retry loop ends without success. -/
def retriesExhaustedMsg (maxRetries : Nat) (lastError : Option String) : String :=
  "Gemini API Error (after " ++ toString maxRetries ++ " retries): "
    ++ lastError.getD "Unknown error"

/-- `handleError(error, attempt)` of the Gemini `LLMService`: classifies
the lowercased error message; non-retryable classes throw a remediation
message immediately, the three named retryable classes throw their own
message on the last attempt and otherwise ask for a retry, and unknown
errors always ask for a retry. Thrown errors are the `Except.error`
branch, the returned boolean is `Except.ok`. -/
def handleError (maxRetries : Nat) (modelName : String) (errMsg : String)
    (attempt : Nat) : Except String Bool :=
  let errorMsg := lowerStr errMsg
  let isLastAttempt := attempt == maxRetries - 1
  if containsSubstr errorMsg "api key" || containsSubstr errorMsg "api_key_invalid" then
    Except.error invalidKeyMsg
  else if containsSubstr errorMsg "model not found" then
    Except.error (modelNotFoundMsg modelName)
  else if containsSubstr errorMsg "billing" || containsSubstr errorMsg "payment" then
    Except.error billingMsg
  else if containsSubstr errorMsg "quota" || containsSubstr errorMsg "resource_exhausted" then
    if isLastAttempt then Except.error quotaMsg else Except.ok true
  else if containsSubstr errorMsg "rate limit" || containsSubstr errorMsg "too many requests" then
    if isLastAttempt then Except.error rateLimitMsg else Except.ok true
  else if containsSubstr errorMsg "network" || containsSubstr errorMsg "fetch" || containsSubstr errorMsg "timeout" then
    if isLastAttempt then Except.error networkMsg else Except.ok true
  else
    Except.ok true

/-- One iteration body of the try block: the raced API call and timeout
are abstracted as an oracle indexed by the attempt number; an empty
response text becomes the empty-response error. -/
def attemptOnce (oracle : Nat → Except String String) (attempt : Nat) :
    Except String String :=
  match oracle attempt with
  | Except.ok text => if text = "" then Except.error emptyResponseMsg else Except.ok text
  | Except.error e => Except.error e

/-- The `for` loop of `callAPI` over the remaining attempt indices.
The result records how many attempts were made, the backoff delays
slept (in ms, in order), and the final outcome. -/
def callAPIGo (maxRetries : Nat) (modelName : String)
    (oracle : Nat → Except String String) :
    List Nat → Option String → Nat × List Nat × Except String String
  | [], lastError =>
      (0, [], Except.error (retriesExhaustedMsg maxRetries lastError))
  | attempt :: restAttempts, _ =>
    match attemptOnce oracle attempt with
    | Except.ok text => (1, [], Except.ok text.trim)
    | Except.error e =>
      match handleError maxRetries modelName e attempt with
      | Except.error thrown => (1, [], Except.error thrown)
      | Except.ok shouldRetry =>
        if !shouldRetry || attempt == maxRetries - 1 then
          (1, [], Except.error (retriesExhaustedMsg maxRetries (some e)))
        else
          let waitTime := 2 ^ attempt * 1000
          let r := callAPIGo maxRetries modelName oracle restAttempts (some e)
          (r.1 + 1, waitTime :: r.2.1, r.2.2)

/-- `callAPI(messages)` retry loop: attempts `0 .. maxRetries - 1`. -/
def callAPI (maxRetries : Nat) (modelName : String)
    (oracle : Nat → Except String String) :
    Nat × List Nat × Except String String :=
  callAPIGo maxRetries modelName oracle (List.range maxRetries) none

/-- The non-retryable classification of `handleError`: exactly the
disjunction of the credential, model and billing keyword checks. -/
def isNonRetryableMsg (errMsg : String) : Bool :=
  containsSubstr (lowerStr errMsg) "api key"
    || containsSubstr (lowerStr errMsg) "api_key_invalid"
    || containsSubstr (lowerStr errMsg) "model not found"
    || containsSubstr (lowerStr errMsg) "billing"
    || containsSubstr (lowerStr errMsg) "payment"

/-- A retryable error outside the three named retryable classes
(quota, rate limit, network/timeout). -/
def retryClassUnknown (errMsg : String) : Bool :=
  !(containsSubstr (lowerStr errMsg) "quota"
    || containsSubstr (lowerStr errMsg) "resource_exhausted"
    || containsSubstr (lowerStr errMsg) "rate limit"
    || containsSubstr (lowerStr errMsg) "too many requests"
    || containsSubstr (lowerStr errMsg) "network"
    || containsSubstr (lowerStr errMsg) "fetch"
    || containsSubstr (lowerStr errMsg) "timeout")

/-- The error `callAPI` ends with when the last attempt failed with a
retryable error `errMsg`: what `handleError` throws on the last
attempt, or else the wrapped retries-exhausted message. -/
def lastAttemptFailureMsg (maxRetries : Nat) (modelName errMsg : String) : String :=
  match handleError maxRetries modelName errMsg (maxRetries - 1) with
  | Except.error m => m
  | Except.ok _ => retriesExhaustedMsg maxRetries (some errMsg)

end Gemini

/-- One line of the recent-conversation block built inside `callAPI`:
the role label and the message content. -/
def fmtLine (msg : ChatMessage) : String :=
  (if msg.role = Role.user then "User" else "Assistant")
    ++ ": " ++ msg.content ++ "\n"

/-- Concatenation of the formatted conversation lines, in order. -/
def linesStr : List ChatMessage → String
  | [] => ""
  | msg :: rest => fmtLine msg ++ linesStr rest

/-- JS `slice(-6)`: the last six entries, or all of them when there are
fewer than six. -/
def lastSix (l : List ChatMessage) : List ChatMessage :=
  l.drop (l.length - 6)

/-- The context part of the outbound message: the system message
content truncated to 1000 characters plus a blank line, empty when the
context (and hence the system message) is absent. -/
def contextPart (ctx : String) : String :=
  if ctx = "" then "" else truncateContent (systemContent ctx) 1000 ++ "\n\n"

/-- The outbound `message` field that `callAPI` posts to the endpoint:
the truncated system-message content, then the recent-conversation
block over the last six non-system messages, with the last user
message alone as a fallback when everything else is empty. -/
def outboundMessage (messages : List ChatMessage) : String :=
  let fullMessage0 :=
    match messages.find? (fun m => decide (m.role = Role.system)) with
    | some sysMsg => truncateContent sysMsg.content 1000 ++ "\n\n"
    | none => ""
  let chatMessages := messages.filter (fun m => decide (¬ m.role = Role.system))
  let recentMessages := chatMessages.drop (chatMessages.length - 6)
  let fullMessage :=
    if 0 < recentMessages.length then
      recentMessages.foldl (fun acc msg => acc ++ fmtLine msg)
        (fullMessage0 ++ "Recent conversation:\n")
    else fullMessage0
  let question :=
    match (messages.filter (fun m => decide (m.role = Role.user))).getLast? with
    | some m => m.content
    | none => ""
  if fullMessage = "" then question else fullMessage

theorem takeWhile_append_of_pos {α} (p : α → Bool) :
    ∀ (l : List α) (x : α), (∀ c ∈ l, p c = true) → p x = false →
      (l ++ [x]).takeWhile p = l ∧ (l ++ [x]).dropWhile p = [x]
  | [], x, _, hx => by simp [List.takeWhile, List.dropWhile, hx]
  | c :: cs, x, h, hx => by
      have hc : p c = true := h c (List.mem_cons_self _ _)
      have ih := takeWhile_append_of_pos p cs x
        (fun d hd => h d (List.mem_cons_of_mem _ hd)) hx
      simp [List.takeWhile_cons, List.dropWhile_cons, hc, ih.1, ih.2]

theorem scanReplace_nil (step : List Char → Option (List Char × List Char)) :
    ∀ n, scanReplace step n [] = []
  | 0 => rfl
  | _ + 1 => rfl

/-- Claim C7: the entity decoder maps the six named entities to
ampersand, angle brackets, double quote, apostrophe and space
respectively; every entity-shaped token outside this fixed set is left
verbatim; and decoding the concatenation of the six yields the six
decoded characters in order. -/
theorem decodeHTMLEntities_spec :
    (decodeHTMLEntities "&amp;" = "&" ∧ decodeHTMLEntities "&lt;" = "<" ∧
      decodeHTMLEntities "&gt;" = ">" ∧ decodeHTMLEntities "&quot;" = "\"" ∧
      decodeHTMLEntities "&#39;" = String.mk [apos] ∧
      decodeHTMLEntities "&nbsp;" = " ") ∧
    (∀ body : String, body ≠ "" → (∀ c ∈ body.data, c ≠ ';') →
      ("&" ++ body ++ ";") ∉
        (["&amp;", "&lt;", "&gt;", "&quot;", "&#39;", "&nbsp;"] : List String) →
      decodeHTMLEntities ("&" ++ body ++ ";") = "&" ++ body ++ ";") ∧
    decodeHTMLEntities "&amp;&lt;&gt;&quot;&#39;&nbsp;"
      = "&<>\"" ++ String.mk [apos] ++ " " := by
  refine ⟨⟨by decide, by decide, by decide, by decide, by decide, by decide⟩,
    ?_, by decide⟩
  intro body hne hnosemi hnotin
  have hdata : ("&" ++ body ++ ";").data = '&' :: (body.data ++ [';']) := by
    rw [String.data_append, String.data_append]; rfl
  have hbody : body.data ≠ [] := by
    intro h
    exact hne (String.ext (h.trans rfl))
  have htw := takeWhile_append_of_pos (fun c => decide (c ≠ ';')) body.data ';'
    (fun c hc => decide_eq_true (hnosemi c hc)) (by decide)
  have hlook : entLookup ("&" ++ body ++ ";") = "&" ++ body ++ ";" := by
    simp only [List.mem_cons, List.mem_singleton] at hnotin
    push_neg at hnotin
    obtain ⟨h1, h2, h3, h4, h5, h6⟩ := hnotin
    simp [entLookup, h1, h2, h3, h4, h5, h6]
  have hbe : body.data.isEmpty = false := by
    cases hb : body.data with
    | nil => exact absurd hb hbody
    | cons c cs => rfl
  unfold decodeHTMLEntities
  rw [hdata]
  simp only [List.length_cons]
  rw [scanReplace]
  simp only [entityStep, htw.1, htw.2, hbe, Bool.false_eq_true, if_false]
  rw [scanReplace_nil, List.append_nil]
  have htok : String.mk ('&' :: body.data ++ [';']) = "&" ++ body ++ ";" :=
    String.ext (by rw [List.cons_append, ← hdata])
  rw [htok, hlook]

/-- Witness for C7 (the pass-through conjunct has hypotheses):
the unrecognized entity token stays verbatim. -/
theorem decodeHTMLEntities_spec_witness :
    (("copy" : String) ≠ "" ∧ (∀ c ∈ ("copy" : String).data, c ≠ ';') ∧
      ("&" ++ "copy" ++ ";") ∉
        (["&amp;", "&lt;", "&gt;", "&quot;", "&#39;", "&nbsp;"] : List String)) ∧
    decodeHTMLEntities ("&" ++ "copy" ++ ";") = "&" ++ "copy" ++ ";" :=
  ⟨⟨by decide, by decide, by decide⟩,
    decodeHTMLEntities_spec.2.1 "copy" (by decide) (by decide) (by decide)⟩

/-- Claim C8: the HTML-to-text transformation on the concrete input
with a script block, a paragraph tag and an encoded ampersand yields
exactly the plain sentence. -/
theorem extractTextFromHTML_scenario :
    extractTextFromHTML "<html><script>x</script><p>Hello &amp; World</p></html>"
      = "Hello & World" := by decide

/-- Claim C9: `clearHistory()` empties the transcript, leaves the stored
context exactly as it was, and is a total function (no error outcome). -/
theorem clearHistory_clears_only_history (s : LLMState) :
    (clearHistory s).chatHistory = [] ∧
    (clearHistory s).websiteContext = s.websiteContext :=
  ⟨rfl, rfl⟩

/-- Claim C10: `setWebsiteContext(c)` empties the transcript
unconditionally — in particular also when `c` equals the context already
stored and when `c` is the empty string — and stores `c` as the context. -/
theorem setWebsiteContext_always_clears (c : String) (s : LLMState) :
    (setWebsiteContext c s).chatHistory = [] ∧
    (setWebsiteContext c s).websiteContext = c ∧
    (setWebsiteContext s.websiteContext s).chatHistory = [] ∧
    (setWebsiteContext "" s).chatHistory = [] :=
  ⟨rfl, rfl, rfl, rfl⟩

/-- Claim C4: after `setContext(c1)`, one or more `sendMessage` calls of
any outcome, then `setContext(c2)` with `c1 ≠ c2`, the transcript is
empty immediately after the second call, and after any `setContext(c)`
the stored context equals `c`. -/
theorem context_reset_clears_transcript (c1 c2 : String) (s : LLMState)
    (calls : List ((List ChatMessage → Except String String) × String))
    (_hne : c1 ≠ c2) (_hcalls : 1 ≤ calls.length) :
    (setWebsiteContext c2 (runSends calls (setWebsiteContext c1 s))).chatHistory
      = [] ∧
    ∀ (c : String) (s' : LLMState),
      (setWebsiteContext c s').websiteContext = c :=
  ⟨rfl, fun _ _ => rfl⟩

/-- Witness for C4 at concrete inputs: contexts "A" ≠ "B", one failing
send in between. -/
theorem context_reset_clears_transcript_witness :
    ("A" : String) ≠ "B" ∧
    1 ≤ [((fun _ => Except.error "down" :
            List ChatMessage → Except String String), "hi")].length ∧
    ((setWebsiteContext "B" (runSends
        [((fun _ => Except.error "down"), "hi")]
        (setWebsiteContext "A" initialState))).chatHistory = [] ∧
      ∀ (c : String) (s' : LLMState),
        (setWebsiteContext c s').websiteContext = c) :=
  ⟨by decide, by decide,
    context_reset_clears_transcript "A" "B" initialState _
      (by decide) (by decide)⟩

/-- Claim C1: if a `sendMessage` call fails, the whole client state
after the call equals the state before it: the just-appended user
message is popped again and nothing else changed. Quantifying over
arbitrary pre-states covers every sequence of prior calls. -/
theorem sendMessage_rollback
    (api : List ChatMessage → Except String String)
    (u : String) (s : LLMState) (e : String)
    (hfail : (sendMessage api u s).1 = Except.error e) :
    (sendMessage api u s).2 = s := by
  unfold sendMessage at hfail ⊢
  cases hapi : api (messagesFor s u) with
  | ok r => rw [hapi] at hfail; simp at hfail
  | error e' => simp [List.dropLast_concat]

/-- Witness for C1: a concrete failing API call on a concrete non-empty
state leaves the state unchanged. -/
theorem sendMessage_rollback_witness :
    (sendMessage (fun _ => Except.error "boom") "hi"
        ⟨[⟨Role.user, "a"⟩, ⟨Role.assistant, "b"⟩], "ctx"⟩).1
      = Except.error "boom" ∧
    (sendMessage (fun _ => Except.error "boom") "hi"
        ⟨[⟨Role.user, "a"⟩, ⟨Role.assistant, "b"⟩], "ctx"⟩).2
      = ⟨[⟨Role.user, "a"⟩, ⟨Role.assistant, "b"⟩], "ctx"⟩ :=
  ⟨rfl,
    sendMessage_rollback (fun _ => Except.error "boom") "hi"
      ⟨[⟨Role.user, "a"⟩, ⟨Role.assistant, "b"⟩], "ctx"⟩ "boom" rfl⟩

/-- Claim C6: `truncateContent` returns strings within the limit
unchanged; longer strings become exactly the first `L` characters
followed by the literal truncation marker. -/
theorem truncateContent_spec (s : String) (L : Nat) :
    (s.length ≤ L → truncateContent s L = s) ∧
    (L < s.length →
      truncateContent s L
        = String.mk (s.data.take L) ++ "\n\n[Content truncated...]" ∧
      (String.mk (s.data.take L)).length = L) := by
  constructor
  · intro h
    simp [truncateContent, h]
  · intro h
    refine ⟨by simp [truncateContent, Nat.not_le.mpr h], ?_⟩
    have : s.length = s.data.length := rfl
    simp only [String.length_mk, List.length_take]
    omega

/-- Witness for C6: both branches at concrete inputs. -/
theorem truncateContent_spec_witness :
    (("ab" : String).length ≤ 5 ∧ truncateContent "ab" 5 = "ab") ∧
    (3 < ("abcdef" : String).length ∧
      truncateContent "abcdef" 3
        = String.mk ("abcdef".data.take 3) ++ "\n\n[Content truncated...]" ∧
      (String.mk ("abcdef".data.take 3)).length = 3) :=
  ⟨⟨by decide, (truncateContent_spec "ab" 5).1 (by decide)⟩,
    ⟨by decide, (truncateContent_spec "abcdef" 3).2 (by decide)⟩⟩

theorem listStartsWith_self_append :
    ∀ (pat rest : List Char), listStartsWith pat (pat ++ rest) = true
  | [], _ => rfl
  | p :: ps, rest => by
      simp [listStartsWith, listStartsWith_self_append ps rest]

theorem listContains_of_startsWith (pat : List Char) :
    ∀ (l : List Char), listStartsWith pat l = true → listContains pat l = true
  | [], h => by simp [listContains, h]
  | _ :: _, h => by simp [listContains, h]

theorem listContains_infix :
    ∀ (p pat q : List Char), listContains pat (p ++ pat ++ q) = true
  | [], pat, q =>
      listContains_of_startsWith pat _ (listStartsWith_self_append pat q)
  | c :: cs, pat, q => by
      have ih := listContains_infix cs pat q
      rw [show (c :: cs) ++ pat ++ q = c :: (cs ++ pat ++ q) from rfl]
      simp only [listContains, ih, Bool.or_true]

theorem containsSubstr_of_sandwich (a pat b : String) :
    containsSubstr (a ++ pat ++ b) pat = true := by
  unfold containsSubstr
  rw [String.data_append, String.data_append]
  exact listContains_infix a.data pat.data b.data

theorem handleError_nonretryable (R : Nat) (m e : String) (a : Nat)
    (hnr : Gemini.isNonRetryableMsg e = true) :
    ∃ msg, Gemini.handleError R m e a = Except.error msg ∧
      (msg = Gemini.invalidKeyMsg ∨ msg = Gemini.modelNotFoundMsg m ∨
        msg = Gemini.billingMsg) := by
  unfold Gemini.isNonRetryableMsg at hnr
  by_cases h1 : (containsSubstr (Gemini.lowerStr e) "api key"
      || containsSubstr (Gemini.lowerStr e) "api_key_invalid") = true
  · exact ⟨Gemini.invalidKeyMsg, by simp [Gemini.handleError, h1], Or.inl rfl⟩
  by_cases h2 : containsSubstr (Gemini.lowerStr e) "model not found" = true
  · exact ⟨Gemini.modelNotFoundMsg m, by simp [Gemini.handleError, h1, h2],
      Or.inr (Or.inl rfl)⟩
  by_cases h3 : (containsSubstr (Gemini.lowerStr e) "billing"
      || containsSubstr (Gemini.lowerStr e) "payment") = true
  · exact ⟨Gemini.billingMsg, by simp [Gemini.handleError, h1, h2, h3],
      Or.inr (Or.inr rfl)⟩
  exfalso
  simp only [Bool.or_eq_true, not_or, Bool.not_eq_true] at h1 h2 h3 hnr
  rcases hnr with ((((c1 | c2) | c3) | c4) | c5) <;> simp_all

/-- Claim C5: when the first attempt fails with a non-retryable error
(credential / model / billing), `callAPI` aborts after that single
attempt with the specific remediation message: one attempt made, no
backoff delay slept. Uses the default retry budget of 3. -/
theorem nonretryable_aborts_first_attempt (modelName e : String)
    (oracle : Nat → Except String String)
    (h0 : Gemini.attemptOnce oracle 0 = Except.error e)
    (hnr : Gemini.isNonRetryableMsg e = true) :
    ∃ msg, Gemini.handleError Gemini.defaultMaxRetries modelName e 0 = Except.error msg ∧
      Gemini.callAPI Gemini.defaultMaxRetries modelName oracle = (1, [], Except.error msg) ∧
      (msg = Gemini.invalidKeyMsg ∨ msg = Gemini.modelNotFoundMsg modelName ∨
        msg = Gemini.billingMsg) := by
  obtain ⟨msg, hmsg, hor⟩ :=
    handleError_nonretryable Gemini.defaultMaxRetries modelName e 0 hnr
  refine ⟨msg, hmsg, ?_, hor⟩
  unfold Gemini.callAPI
  rw [show List.range Gemini.defaultMaxRetries = [0, 1, 2] from rfl]
  simp only [Gemini.callAPIGo, h0, hmsg]

/-- Witness for C5: an always-invalid-credential endpoint. -/
theorem nonretryable_aborts_first_attempt_witness :
    Gemini.attemptOnce (fun _ => Except.error "API key not valid") 0
        = Except.error "API key not valid" ∧
    Gemini.isNonRetryableMsg "API key not valid" = true ∧
    (∃ msg, Gemini.handleError Gemini.defaultMaxRetries "gemini-pro" "API key not valid" 0
          = Except.error msg ∧
      Gemini.callAPI Gemini.defaultMaxRetries "gemini-pro"
          (fun _ => Except.error "API key not valid") = (1, [], Except.error msg) ∧
      (msg = Gemini.invalidKeyMsg ∨ msg = Gemini.modelNotFoundMsg "gemini-pro" ∨
        msg = Gemini.billingMsg)) :=
  ⟨rfl, by decide,
    nonretryable_aborts_first_attempt "gemini-pro" "API key not valid"
      (fun _ => Except.error "API key not valid") rfl (by decide)⟩

theorem handleError_retryable_notLast (R : Nat) (m e : String) (a : Nat)
    (hnr : Gemini.isNonRetryableMsg e = false) (hla : (a == R - 1) = false) :
    Gemini.handleError R m e a = Except.ok true := by
  unfold Gemini.isNonRetryableMsg at hnr
  simp only [Bool.or_eq_false_iff] at hnr
  obtain ⟨⟨⟨⟨n1, n2⟩, n3⟩, n4⟩, n5⟩ := hnr
  simp [Gemini.handleError, n1, n2, n3, n4, n5, hla]

theorem handleError_unknown_retryable (R : Nat) (m e : String) (a : Nat)
    (hnr : Gemini.isNonRetryableMsg e = false)
    (hu : Gemini.retryClassUnknown e = true) :
    Gemini.handleError R m e a = Except.ok true := by
  unfold Gemini.isNonRetryableMsg at hnr
  unfold Gemini.retryClassUnknown at hu
  simp only [Bool.or_eq_false_iff] at hnr
  simp only [Bool.not_eq_true', Bool.or_eq_false_iff] at hu
  obtain ⟨⟨⟨⟨n1, n2⟩, n3⟩, n4⟩, n5⟩ := hnr
  obtain ⟨⟨⟨⟨⟨⟨u1, u2⟩, u3⟩, u4⟩, u5⟩, u6⟩, u7⟩ := hu
  simp [Gemini.handleError, n1, n2, n3, n4, n5, u1, u2, u3, u4, u5, u6, u7]

theorem handleError_classified_last (R : Nat) (m e : String)
    (hnr : Gemini.isNonRetryableMsg e = false)
    (hc : Gemini.retryClassUnknown e = false) :
    Gemini.handleError R m e (R - 1) = Except.error Gemini.quotaMsg ∨
    Gemini.handleError R m e (R - 1) = Except.error Gemini.rateLimitMsg ∨
    Gemini.handleError R m e (R - 1) = Except.error Gemini.networkMsg := by
  unfold Gemini.isNonRetryableMsg at hnr
  simp only [Bool.or_eq_false_iff] at hnr
  obtain ⟨⟨⟨⟨n1, n2⟩, n3⟩, n4⟩, n5⟩ := hnr
  by_cases c4 : (containsSubstr (Gemini.lowerStr e) "quota"
      || containsSubstr (Gemini.lowerStr e) "resource_exhausted") = true
  · exact Or.inl (by simp [Gemini.handleError, n1, n2, n3, n4, n5, c4])
  by_cases c5 : (containsSubstr (Gemini.lowerStr e) "rate limit"
      || containsSubstr (Gemini.lowerStr e) "too many requests") = true
  · exact Or.inr (Or.inl
      (by simp [Gemini.handleError, n1, n2, n3, n4, n5, c4, c5]))
  by_cases c6 : (containsSubstr (Gemini.lowerStr e) "network"
      || containsSubstr (Gemini.lowerStr e) "fetch"
      || containsSubstr (Gemini.lowerStr e) "timeout") = true
  · exact Or.inr (Or.inr
      (by simp [Gemini.handleError, n1, n2, n3, n4, n5, c4, c5, c6]))
  exfalso
  unfold Gemini.retryClassUnknown at hc
  simp only [Bool.or_eq_true, not_or, Bool.not_eq_true] at c4 c5 c6
  simp [c4.1, c4.2, c5.1, c5.2, c6.1.1, c6.1.2, c6.2] at hc

theorem callAPIGo_cons_retry (R : Nat) (m : String)
    (oracle : Nat → Except String String) (a : Nat) (rest : List Nat)
    (le : Option String) (ea : String)
    (ha : Gemini.attemptOnce oracle a = Except.error ea)
    (hnr : Gemini.isNonRetryableMsg ea = false)
    (hla : (a == R - 1) = false) :
    Gemini.callAPIGo R m oracle (a :: rest) le
      = ((Gemini.callAPIGo R m oracle rest (some ea)).1 + 1,
          2 ^ a * 1000 :: (Gemini.callAPIGo R m oracle rest (some ea)).2.1,
          (Gemini.callAPIGo R m oracle rest (some ea)).2.2) := by
  simp only [Gemini.callAPIGo, ha, handleError_retryable_notLast R m ea a hnr hla,
    Bool.not_true, Bool.false_or, hla, Bool.false_eq_true, if_false]

theorem callAPIGo_allRetryable (R : Nat) (m : String)
    (oracle : Nat → Except String String) (e : Nat → String)
    (h : ∀ i, i < R → Gemini.attemptOnce oracle i = Except.error (e i)
          ∧ Gemini.isNonRetryableMsg (e i) = false) :
    ∀ (n s : Nat) (lastErr : Option String), s + n = R → 1 ≤ n →
      Gemini.callAPIGo R m oracle (List.range' s n) lastErr
        = (n, (List.range' s (n - 1)).map (fun i => 2 ^ i * 1000),
            Except.error (Gemini.lastAttemptFailureMsg R m (e (R - 1))))
  | 0, _, _, _, hn => absurd hn (by omega)
  | 1, s, lastErr, hsn, _ => by
      have hs : s = R - 1 := by omega
      subst hs
      have hi := h (R - 1) (by omega)
      rw [show List.range' (R - 1) 1 = [R - 1] from rfl]
      simp only [Gemini.callAPIGo, hi.1]
      cases hhe : Gemini.handleError R m (e (R - 1)) (R - 1) with
      | error msg =>
          simp [Gemini.lastAttemptFailureMsg, hhe, List.range']
      | ok b =>
          simp [Gemini.lastAttemptFailureMsg, hhe, List.range']
  | Nat.succ (Nat.succ k), s, lastErr, hsn, _ => by
      have hslt : (s == R - 1) = false := by
        simp only [beq_eq_false_iff_ne, ne_eq]
        omega
      have hi := h s (by omega)
      have ih := callAPIGo_allRetryable R m oracle e h (k + 1) (s + 1)
        (some (e s)) (by omega) (by omega)
      rw [show List.range' s (k + 2) = s :: List.range' (s + 1) (k + 1) from rfl,
        callAPIGo_cons_retry R m oracle s _ lastErr (e s) hi.1 hi.2 hslt, ih]
      rfl

/-- Claim C2 (amended): against an endpoint where every attempt fails
with a retryable error, `callAPI` makes exactly `R` attempts (`R ≥ 1`)
with doubling backoff delays of 1s, 2s, 4s, … slept only between
attempts, then fails; the failure message is built from the last
attempt's error: for an unclassified retryable error it is the wrapped
message naming `R`, while for the quota, rate-limit, or network/timeout
classes it is the class-specific remediation message instead. -/
theorem retry_exhaustion (R : Nat) (m : String)
    (oracle : Nat → Except String String) (e : Nat → String) (hR : 1 ≤ R)
    (h : ∀ i, i < R → Gemini.attemptOnce oracle i = Except.error (e i)
          ∧ Gemini.isNonRetryableMsg (e i) = false) :
    Gemini.callAPI R m oracle
        = (R, (List.range (R - 1)).map (fun i => 2 ^ i * 1000),
            Except.error (Gemini.lastAttemptFailureMsg R m (e (R - 1)))) ∧
    (Gemini.retryClassUnknown (e (R - 1)) = true →
      Gemini.lastAttemptFailureMsg R m (e (R - 1))
          = Gemini.retriesExhaustedMsg R (some (e (R - 1))) ∧
      containsSubstr (Gemini.retriesExhaustedMsg R (some (e (R - 1))))
          (toString R) = true) ∧
    (Gemini.retryClassUnknown (e (R - 1)) = false →
      Gemini.lastAttemptFailureMsg R m (e (R - 1)) = Gemini.quotaMsg ∨
      Gemini.lastAttemptFailureMsg R m (e (R - 1)) = Gemini.rateLimitMsg ∨
      Gemini.lastAttemptFailureMsg R m (e (R - 1)) = Gemini.networkMsg) := by
  have hlast := h (R - 1) (by omega)
  refine ⟨?_, ?_, ?_⟩
  · unfold Gemini.callAPI
    rw [List.range_eq_range' R, List.range_eq_range' (R - 1)]
    exact callAPIGo_allRetryable R m oracle e h R 0 none (by omega) hR
  · intro hu
    constructor
    · simp [Gemini.lastAttemptFailureMsg,
        handleError_unknown_retryable R m (e (R - 1)) (R - 1) hlast.2 hu]
    · unfold Gemini.retriesExhaustedMsg
      rw [String.append_assoc]
      exact containsSubstr_of_sandwich _ _ _
  · intro hc
    rcases handleError_classified_last R m (e (R - 1)) hlast.2 hc with hq | hr | hn
    · exact Or.inl (by simp [Gemini.lastAttemptFailureMsg, hq])
    · exact Or.inr (Or.inl (by simp [Gemini.lastAttemptFailureMsg, hr]))
    · exact Or.inr (Or.inr (by simp [Gemini.lastAttemptFailureMsg, hn]))

/-- Witness for C2 (amended) at the default budget of 3 and a constant
unclassified retryable failure. -/
theorem retry_exhaustion_witness :
    (1 ≤ 3 ∧
      (∀ i, i < 3 →
        Gemini.attemptOnce (fun _ => Except.error "boom") i
            = Except.error "boom" ∧
        Gemini.isNonRetryableMsg "boom" = false)) ∧
    (Gemini.callAPI 3 "gemini-pro" (fun _ => Except.error "boom")
        = (3, (List.range 2).map (fun i => 2 ^ i * 1000),
            Except.error (Gemini.lastAttemptFailureMsg 3 "gemini-pro" "boom")) ∧
      (Gemini.retryClassUnknown "boom" = true →
        Gemini.lastAttemptFailureMsg 3 "gemini-pro" "boom"
            = Gemini.retriesExhaustedMsg 3 (some "boom") ∧
        containsSubstr (Gemini.retriesExhaustedMsg 3 (some "boom"))
            (toString 3) = true) ∧
      (Gemini.retryClassUnknown "boom" = false →
        Gemini.lastAttemptFailureMsg 3 "gemini-pro" "boom" = Gemini.quotaMsg ∨
        Gemini.lastAttemptFailureMsg 3 "gemini-pro" "boom" = Gemini.rateLimitMsg ∨
        Gemini.lastAttemptFailureMsg 3 "gemini-pro" "boom" = Gemini.networkMsg)) :=
  ⟨⟨by decide, fun _ _ => ⟨rfl, by decide⟩⟩,
    retry_exhaustion 3 "gemini-pro" (fun _ => Except.error "boom")
      (fun _ => "boom") (by decide)
      (fun _ _ => ⟨rfl, show Gemini.isNonRetryableMsg "boom" = false by decide⟩)⟩

/-- Counterexample to C2 as stated: an endpoint that always fails with
a rate-limit error (retryable) does make 3 attempts with delays 1s and
2s, but the final error is the rate-limit remediation message, which
does not name the attempt count 3 anywhere and is not the wrapped
retries-exhausted message. -/
theorem retry_claim_counterexample :
    Gemini.callAPI 3 "gemini-pro" (fun _ => Except.error "rate limit")
        = (3, [1000, 2000], Except.error Gemini.rateLimitMsg) ∧
    containsSubstr Gemini.rateLimitMsg (toString 3) = false ∧
    Gemini.rateLimitMsg ≠ Gemini.retriesExhaustedMsg 3 (some "rate limit") :=
  ⟨rfl, by decide, by decide⟩

theorem foldl_fmtLine :
    ∀ (l : List ChatMessage) (a : String),
      l.foldl (fun acc msg => acc ++ fmtLine msg) a = a ++ linesStr l
  | [], a => by simp [linesStr]
  | msg :: rest, a => by
      simp only [List.foldl_cons, linesStr, foldl_fmtLine rest (a ++ fmtLine msg),
        String.append_assoc]

theorem linesStr_append (l1 l2 : List ChatMessage) :
    linesStr (l1 ++ l2) = linesStr l1 ++ linesStr l2 := by
  induction l1 with
  | nil => simp [linesStr]
  | cons m rest ih => simp [linesStr, ih, String.append_assoc]

theorem listContains_append_left (pat : List Char) :
    ∀ (p l : List Char), listContains pat l = true → listContains pat (p ++ l) = true
  | [], _, h => h
  | c :: cs, l, h => by
      simp [listContains, listContains_append_left pat cs l h]

theorem append_header_ne (c l : String) :
    c ++ "Recent conversation:\n" ++ l ≠ "" := by
  intro hcontra
  have hlen := congrArg String.length hcontra
  rw [String.length_append, String.length_append] at hlen
  have h21 : ("Recent conversation:\n").length = 21 := rfl
  have h0 : ("" : String).length = 0 := rfl
  omega

/-- Claim C3: the outbound message built for a `sendMessage` call is
exactly the truncated context part plus the recent-conversation block
over the last six transcript entries (the transcript then ending with
the new user message), each formatted as a `User:` / `Assistant:` line
— every older entry is absent from the outbound message while the
in-memory transcript keeps them — and the content of the final user
question occurs verbatim inside the outbound message. -/
theorem outbound_window (s : LLMState) (u : String)
    (hns : ∀ m ∈ s.chatHistory, m.role ≠ Role.system) :
    outboundMessage (messagesFor s u)
      = contextPart s.websiteContext ++ "Recent conversation:\n"
          ++ linesStr (lastSix (s.chatHistory ++ [⟨Role.user, u⟩])) ∧
    containsSubstr (outboundMessage (messagesFor s u)) u = true := by
  have hns1 : ∀ m ∈ s.chatHistory ++ [(⟨Role.user, u⟩ : ChatMessage)],
      m.role ≠ Role.system := by
    intro m hm
    rcases List.mem_append.mp hm with h | h
    · exact hns m h
    · rw [List.mem_singleton.mp h]
      simp
  have hfind : (s.chatHistory ++ [(⟨Role.user, u⟩ : ChatMessage)]).find?
      (fun m => decide (m.role = Role.system)) = none := by
    rw [List.find?_eq_none]
    intro x hx
    simp [hns1 x hx]
  have hfilter : (s.chatHistory ++ [(⟨Role.user, u⟩ : ChatMessage)]).filter
      (fun m => decide (¬ m.role = Role.system))
        = s.chatHistory ++ [(⟨Role.user, u⟩ : ChatMessage)] :=
    List.filter_eq_self.mpr (fun a ha => by simp [hns1 a ha])
  have hlen6 : 0 < ((s.chatHistory ++ [(⟨Role.user, u⟩ : ChatMessage)]).drop
      ((s.chatHistory ++ [(⟨Role.user, u⟩ : ChatMessage)]).length - 6)).length := by
    rw [List.length_drop]
    simp only [List.length_append, List.length_singleton]
    omega
  have heq : outboundMessage (messagesFor s u)
      = contextPart s.websiteContext ++ "Recent conversation:\n"
          ++ linesStr (lastSix (s.chatHistory ++ [⟨Role.user, u⟩])) := by
    by_cases hctx : s.websiteContext = ""
    · unfold outboundMessage messagesFor
      simp only [if_pos hctx, List.nil_append, hfind, hfilter, if_pos hlen6,
        foldl_fmtLine]
      rw [if_neg (append_header_ne "" _)]
      unfold contextPart lastSix
      rw [if_pos hctx]
    · have hfind2 : List.find? (fun m => decide (m.role = Role.system))
          ((⟨Role.system, systemContent s.websiteContext⟩ : ChatMessage)
            :: (s.chatHistory ++ [⟨Role.user, u⟩]))
          = some ⟨Role.system, systemContent s.websiteContext⟩ :=
        List.find?_cons_of_pos _ (by simp)
      have hfilter2 : List.filter (fun m => decide (¬ m.role = Role.system))
          ((⟨Role.system, systemContent s.websiteContext⟩ : ChatMessage)
            :: (s.chatHistory ++ [⟨Role.user, u⟩]))
          = s.chatHistory ++ [(⟨Role.user, u⟩ : ChatMessage)] := by
        rw [List.filter_cons_of_neg (by simp), hfilter]
      unfold outboundMessage messagesFor
      simp only [if_neg hctx, List.cons_append, List.nil_append, hfind2, hfilter2,
        if_pos hlen6, foldl_fmtLine]
      rw [if_neg (append_header_ne _ _)]
      unfold contextPart lastSix
      rw [if_neg hctx]
  refine ⟨heq, ?_⟩
  rw [heq]
  have hdrop : lastSix (s.chatHistory ++ [(⟨Role.user, u⟩ : ChatMessage)])
      = s.chatHistory.drop
          ((s.chatHistory ++ [(⟨Role.user, u⟩ : ChatMessage)]).length - 6)
        ++ [(⟨Role.user, u⟩ : ChatMessage)] := by
    unfold lastSix
    rw [List.drop_append_eq_append_drop]
    congr 1
    have hz : (s.chatHistory ++ [(⟨Role.user, u⟩ : ChatMessage)]).length - 6
        - s.chatHistory.length = 0 := by
      rw [List.length_append]
      simp only [List.length_singleton]
      omega
    rw [hz, List.drop_zero]
  have hfl : fmtLine ⟨Role.user, u⟩ = "User" ++ ": " ++ u ++ "\n" := by
    simp [fmtLine]
  rw [hdrop, linesStr_append]
  unfold containsSubstr
  simp only [linesStr, hfl, String.data_append, List.append_assoc]
  repeat (first
    | exact listContains_of_startsWith _ _ (listStartsWith_self_append _ _)
    | apply listContains_append_left)


/-- Witness for C3: an eight-entry transcript, so that the window drops
the two oldest entries, with a non-empty context. -/
theorem outbound_window_witness :
    (∀ m ∈ ([⟨Role.user, "q1"⟩, ⟨Role.assistant, "a1"⟩, ⟨Role.user, "q2"⟩,
        ⟨Role.assistant, "a2"⟩, ⟨Role.user, "q3"⟩, ⟨Role.assistant, "a3"⟩,
        ⟨Role.user, "q4"⟩, ⟨Role.assistant, "a4"⟩] : List ChatMessage), m.role ≠ Role.system) ∧
    (outboundMessage (messagesFor ⟨[⟨Role.user, "q1"⟩, ⟨Role.assistant, "a1"⟩, ⟨Role.user, "q2"⟩,
        ⟨Role.assistant, "a2"⟩, ⟨Role.user, "q3"⟩, ⟨Role.assistant, "a3"⟩,
        ⟨Role.user, "q4"⟩, ⟨Role.assistant, "a4"⟩], "CTX"⟩ "final")
        = contextPart "CTX" ++ "Recent conversation:\n"
            ++ linesStr (lastSix (([⟨Role.user, "q1"⟩, ⟨Role.assistant, "a1"⟩, ⟨Role.user, "q2"⟩,
        ⟨Role.assistant, "a2"⟩, ⟨Role.user, "q3"⟩, ⟨Role.assistant, "a3"⟩,
        ⟨Role.user, "q4"⟩, ⟨Role.assistant, "a4"⟩] : List ChatMessage)
                ++ [⟨Role.user, "final"⟩])) ∧
      containsSubstr (outboundMessage (messagesFor ⟨[⟨Role.user, "q1"⟩, ⟨Role.assistant, "a1"⟩, ⟨Role.user, "q2"⟩,
        ⟨Role.assistant, "a2"⟩, ⟨Role.user, "q3"⟩, ⟨Role.assistant, "a3"⟩,
        ⟨Role.user, "q4"⟩, ⟨Role.assistant, "a4"⟩], "CTX"⟩ "final"))
          "final" = true) :=
  ⟨by decide, outbound_window ⟨[⟨Role.user, "q1"⟩, ⟨Role.assistant, "a1"⟩, ⟨Role.user, "q2"⟩,
        ⟨Role.assistant, "a2"⟩, ⟨Role.user, "q3"⟩, ⟨Role.assistant, "a3"⟩,
        ⟨Role.user, "q4"⟩, ⟨Role.assistant, "a4"⟩], "CTX"⟩ "final" (by decide)⟩

end AIApp
